import Mathlib

/-!
A model of the `desktopCapturer.getSources` contract exercised by
`spec-main/api-desktop-capturer-spec.ts`.  The capture engine itself lives in
the host GUI runtime and is not part of the repository's sources, so its
observable behaviour is modelled here from the specification's black-box
contract: a query over a world of capturable windows (kept in z-order,
foreground first) and displays, returning source descriptors with a stable
id, a display identifier (empty when not applicable) and a thumbnail.
-/

namespace DesktopCapturer

/-- Capture kinds that may be requested in the `types` field of the options. -/
inductive SourceType
  | window
  | screen
deriving DecidableEq, Repr

/-- Requested thumbnail dimensions (the `thumbnailSize` option). -/
structure ThumbnailSize where
  width : Nat
  height : Nat
deriving DecidableEq, Repr

/-- Modelled from the spec: a NativeImage thumbnail, reduced to its pixel
dimensions; the engine renders thumbnails at the requested size. -/
structure Thumbnail where
  width : Nat
  height : Nat
deriving DecidableEq, Repr

/-- Modelled from the spec: `NativeImage.isEmpty` — an image with a zero
dimension holds no pixels and is empty. -/
def Thumbnail.isEmpty (t : Thumbnail) : Bool :=
  t.width == 0 || t.height == 0

/-- Modelled from the spec: the opaque media-source identifier, compared only
for equality by the tests; window ids and screen ids never collide. -/
inductive SourceId
  | window (n : Nat)
  | screen (n : Int)
deriving DecidableEq, Repr

/-- Modelled from the spec: a display known to the separate
display-enumeration API (`screen.getAllDisplays`), reduced to its numeric id. -/
structure Display where
  id : Int
deriving DecidableEq, Repr

/-- Modelled from the spec: a live window of the window-lifecycle
collaborator, reduced to the numeric identity behind its media-source id. -/
structure Window where
  winId : Nat
deriving DecidableEq, Repr

/-- Modelled from the spec: `BrowserWindow.getMediaSourceId`, the stable
capture identifier of a window. -/
def Window.getMediaSourceId (w : Window) : SourceId :=
  .window w.winId

/-- The source descriptor returned per capturable window/screen: id,
display_id, thumbnail (DesktopCapturerSource). -/
structure Source where
  id : SourceId
  display_id : String
  thumbnail : Thumbnail
deriving DecidableEq, Repr

/-- A well-formed configuration object for `getSources`. -/
structure SourcesOptions where
  types : List SourceType
  thumbnailSize : Option ThumbnailSize
deriving DecidableEq, Repr

/-- The raw JavaScript value passed as the options argument: a well-formed
configuration object, a bare array (as in the invalid-options test), or any
other non-object value. -/
inductive RawOptions
  | obj (o : SourcesOptions)
  | arr (a : List SourceType)
  | other
deriving DecidableEq, Repr

/-- Modelled from the spec: the observable state of the external capture
engine — live windows in z-order (foreground first), the displays reported by
the display-enumeration API, and whether the harness has instructed the host
to block the next capture query. -/
structure World where
  windows : List Window
  displays : List Display
  blockNext : Bool
deriving DecidableEq, Repr

/-- Default thumbnail size used when the option is omitted. -/
def defaultThumbnailSize : ThumbnailSize :=
  ⟨150, 150⟩

/-- Thumbnail rendered at the requested size. -/
def makeThumbnail (ts : ThumbnailSize) : Thumbnail :=
  ⟨ts.width, ts.height⟩

/-- Source descriptor produced for a window: its media-source id, an empty
display identifier (not applicable to windows), and a thumbnail. -/
def windowSource (ts : ThumbnailSize) (w : Window) : Source :=
  ⟨w.getMediaSourceId, "", makeThumbnail ts⟩

/-- Source descriptor produced for a display: a screen media-source id and the
decimal string of the display id, as correlated with the Screen API. -/
def screenSource (ts : ThumbnailSize) (d : Display) : Source :=
  ⟨.screen d.id, toString d.id, makeThumbnail ts⟩

/-- Modelled from the spec: `desktopCapturer.getSources`.  Malformed options
reject with the error message used by the engine; a blocked query resolves
with an empty list; otherwise screen sources (in display order) and window
sources (in z-order, foreground to background) are returned for the requested
types. -/
def getSources (w : World) (raw : RawOptions) : Except String (List Source) :=
  match raw with
  | .obj o =>
    if w.blockNext then .ok []
    else
      let ts := o.thumbnailSize.getD defaultThumbnailSize
      .ok ((if SourceType.screen ∈ o.types then w.displays.map (screenSource ts) else []) ++
           (if SourceType.window ∈ o.types then w.windows.map (windowSource ts) else []))
  | _ => .error "Invalid options"

/-- Modelled from the spec: a sequence of `getSources` calls against the same
world; the query is a pure read of the engine state, so overlapping calls do
not interfere and each observes the same world. -/
def runCalls (w : World) (calls : List RawOptions) : List (Except String (List Source)) :=
  calls.map (getSources w)

/-- Concrete sample world used by witnesses. -/
def sampleWorld : World :=
  ⟨[⟨1⟩, ⟨2⟩], [⟨7⟩], false⟩

/-- C1: a `getSources` call whose options argument is not a well-formed
configuration object rejects with the error message Invalid options, and in
particular never resolves successfully. -/
theorem getSources_invalid_options (w : World) (raw : RawOptions)
    (h : ∀ o : SourcesOptions, raw ≠ .obj o) :
    getSources w raw = .error "Invalid options" := by
  cases raw with
  | obj o => exact absurd rfl (h o)
  | arr a => rfl
  | other => rfl

/-- C1 witness: the bare array the test passes is rejected with the expected
error. -/
theorem getSources_invalid_options_witness :
    getSources sampleWorld (.arr [.window, .screen]) = .error "Invalid options" :=
  getSources_invalid_options sampleWorld (.arr [.window, .screen])
    (fun _ h => by cases h)

/-- Helper: a well-formed unblocked query resolves with one non-empty list
when a requested kind has at least one matching source. -/
theorem getSources_ok_ne_nil (w : World) (o : SourcesOptions)
    (hb : w.blockNext = false)
    (hm : (SourceType.window ∈ o.types ∧ w.windows ≠ []) ∨
          (SourceType.screen ∈ o.types ∧ w.displays ≠ [])) :
    ∃ l, getSources w (.obj o) = .ok l ∧ l ≠ [] := by
  refine ⟨(if SourceType.screen ∈ o.types then
        w.displays.map (screenSource (o.thumbnailSize.getD defaultThumbnailSize)) else []) ++
      (if SourceType.window ∈ o.types then
        w.windows.map (windowSource (o.thumbnailSize.getD defaultThumbnailSize)) else []),
    by simp [getSources, hb], ?_⟩
  intro hnil
  rw [List.append_eq_nil] at hnil
  rcases hm with ⟨hw, hne⟩ | ⟨hs, hne⟩
  · have := hnil.2
    rw [if_pos hw, List.map_eq_nil_iff] at this
    exact hne this
  · have := hnil.1
    rw [if_pos hs, List.map_eq_nil_iff] at this
    exact hne this

/-- C2: in any sequence of `getSources` calls against an unblocked world —
however many calls precede it and whatever other calls are pending — every
well-formed call requesting a valid subset of the window/screen kinds for
which at least one matching source exists resolves with a non-empty array and
does not reject. -/
theorem getSources_nonempty_in_trace (w : World) (o : SourcesOptions)
    (calls : List RawOptions) (i : Nat)
    (hb : w.blockNext = false)
    (hm : (SourceType.window ∈ o.types ∧ w.windows ≠ []) ∨
          (SourceType.screen ∈ o.types ∧ w.displays ≠ []))
    (hc : calls[i]? = some (.obj o)) :
    ∃ l, (runCalls w calls)[i]? = some (.ok l) ∧ l ≠ [] := by
  obtain ⟨l, hok, hne⟩ := getSources_ok_ne_nil w o hb hm
  refine ⟨l, ?_, hne⟩
  rw [runCalls, List.getElem?_map, hc]
  exact congrArg some hok

/-- C2 witness: with one window and one display, the second call of a
two-call trace requesting both kinds resolves non-empty. -/
theorem getSources_nonempty_in_trace_witness :
    ∃ l, (runCalls sampleWorld [.obj ⟨[.window], none⟩,
            .obj ⟨[.window, .screen], none⟩])[1]? = some (.ok l) ∧ l ≠ [] :=
  getSources_nonempty_in_trace sampleWorld ⟨[.window, .screen], none⟩
    [.obj ⟨[.window], none⟩, .obj ⟨[.window, .screen], none⟩] 1
    rfl (Or.inl ⟨by decide, by decide⟩) rfl

/-- C10: when the harness has instructed the host to block the next capture
query, a well-formed `getSources` call does not reject but resolves with an
empty array. -/
theorem getSources_blocked_empty (w : World) (o : SourcesOptions)
    (hb : w.blockNext = true) :
    getSources w (.obj o) = .ok [] := by
  simp [getSources, hb]

/-- C10 witness: a blocked world resolves a screen query with an empty
array. -/
theorem getSources_blocked_empty_witness :
    getSources ⟨[⟨1⟩], [⟨7⟩], true⟩ (.obj ⟨[.screen], none⟩) = .ok [] :=
  getSources_blocked_empty ⟨[⟨1⟩], [⟨7⟩], true⟩ ⟨[.screen], none⟩ rfl

/-- C5: every source resolved by a `getSources` call requesting only the
window kind carries a (string) display identifier equal to the empty string. -/
theorem window_sources_empty_display_id (w : World) (ts : Option ThumbnailSize)
    (l : List Source)
    (hl : getSources w (.obj ⟨[.window], ts⟩) = .ok l) :
    ∀ s ∈ l, s.display_id = "" := by
  intro s hs
  cases hb : w.blockNext with
  | true =>
    simp [getSources, hb] at hl
    subst hl
    cases hs
  | false =>
    simp only [getSources, hb, if_neg (by decide : ¬ SourceType.screen ∈ [SourceType.window]),
      if_pos (by decide : SourceType.window ∈ [SourceType.window]), if_false,
      List.nil_append, Bool.false_eq_true, Except.ok.injEq] at hl
    subst hl
    obtain ⟨x, _, hx⟩ := List.mem_map.mp hs
    rw [← hx]
    rfl

/-- C5 witness: in the sample world the first resolved window source has an
empty display id. -/
theorem window_sources_empty_display_id_witness :
    (windowSource defaultThumbnailSize ⟨1⟩).display_id = "" :=
  window_sources_empty_display_id sampleWorld none
    [windowSource defaultThumbnailSize ⟨1⟩, windowSource defaultThumbnailSize ⟨2⟩] rfl
    (windowSource defaultThumbnailSize ⟨1⟩) (by decide)

/-- C6: a `getSources` call requesting only the screen kind resolves with an
array of the same length as the display-enumeration API's display list, whose
i-th entry's display identifier is the decimal string of the i-th display's
id. -/
theorem screen_sources_match_displays (w : World) (ts : Option ThumbnailSize)
    (hb : w.blockNext = false) :
    ∃ l, getSources w (.obj ⟨[.screen], ts⟩) = .ok l ∧
      l.length = w.displays.length ∧
      l.map Source.display_id = w.displays.map (fun d => toString d.id) := by
  refine ⟨w.displays.map (screenSource (ts.getD defaultThumbnailSize)), ?_, ?_, ?_⟩
  · simp only [getSources, hb, if_pos (by decide : SourceType.screen ∈ [SourceType.screen]),
      if_neg (by decide : ¬ SourceType.window ∈ [SourceType.screen]), if_false,
      List.append_nil, Bool.false_eq_true]
  · rw [List.length_map]
  · rw [List.map_map]
    rfl

/-- C6 witness: the screen query in the sample world matches its single
display. -/
theorem screen_sources_match_displays_witness :
    ∃ l, getSources sampleWorld (.obj ⟨[.screen], none⟩) = .ok l ∧
      l.length = sampleWorld.displays.length ∧
      l.map Source.display_id = sampleWorld.displays.map (fun d => toString d.id) :=
  screen_sources_match_displays sampleWorld none rfl

/-- C7: when the requested thumbnail size is zero by zero, every source in
the resolved array — window-type and screen-type alike — carries an empty
thumbnail image. -/
theorem zero_thumbnail_size_empty_images (w : World) (types : List SourceType)
    (l : List Source)
    (hl : getSources w (.obj ⟨types, some ⟨0, 0⟩⟩) = .ok l) :
    ∀ s ∈ l, s.thumbnail.isEmpty = true := by
  intro s hs
  cases hb : w.blockNext with
  | true =>
    simp [getSources, hb] at hl
    subst hl
    cases hs
  | false =>
    simp only [getSources, hb, Bool.false_eq_true, if_false, Except.ok.injEq] at hl
    subst hl
    rcases List.mem_append.mp hs with h | h
    · split at h
      · obtain ⟨x, _, hx⟩ := List.mem_map.mp h
        rw [← hx]
        rfl
      · cases h
    · split at h
      · obtain ⟨x, _, hx⟩ := List.mem_map.mp h
        rw [← hx]
        rfl
      · cases h

/-- C7 witness: a zero-size query in the sample world yields an empty
thumbnail for its first (screen-type) source. -/
theorem zero_thumbnail_size_empty_images_witness :
    (screenSource ⟨0, 0⟩ (⟨7⟩ : Display)).thumbnail.isEmpty = true :=
  zero_thumbnail_size_empty_images sampleWorld [.window, .screen]
    [screenSource ⟨0, 0⟩ ⟨7⟩, windowSource ⟨0, 0⟩ ⟨1⟩, windowSource ⟨0, 0⟩ ⟨2⟩] rfl
    (screenSource ⟨0, 0⟩ ⟨7⟩) (by decide)

/-- C8: the media-source id of every live window is findable among the ids of
the sources resolved by an unblocked window query. -/
theorem getMediaSourceId_found (w : World) (win : Window) (ts : Option ThumbnailSize)
    (hb : w.blockNext = false) (hm : win ∈ w.windows) :
    ∃ l, getSources w (.obj ⟨[.window], ts⟩) = .ok l ∧
      ∃ s ∈ l, s.id = win.getMediaSourceId := by
  refine ⟨w.windows.map (windowSource (ts.getD defaultThumbnailSize)), ?_, ?_⟩
  · simp only [getSources, hb, if_neg (by decide : ¬ SourceType.screen ∈ [SourceType.window]),
      if_pos (by decide : SourceType.window ∈ [SourceType.window]), if_false,
      List.nil_append, Bool.false_eq_true]
  · exact ⟨windowSource (ts.getD defaultThumbnailSize) win,
      List.mem_map_of_mem _ hm, rfl⟩

/-- C8 witness: the first sample window's media-source id occurs among the
resolved sources. -/
theorem getMediaSourceId_found_witness :
    ∃ l, getSources sampleWorld (.obj ⟨[.window], none⟩) = .ok l ∧
      ∃ s ∈ l, s.id = Window.getMediaSourceId ⟨1⟩ :=
  getMediaSourceId_found sampleWorld ⟨1⟩ none rfl (by decide)

/-- Helper: `SourceId.screen` is injective. -/
theorem screen_id_injective : Function.Injective SourceId.screen :=
  fun _ _ h => by injection h

/-- Helper: `SourceId.window` is injective. -/
theorem window_id_injective : Function.Injective SourceId.window :=
  fun _ _ h => by injection h

/-- C9: when the engine's windows and displays carry pairwise-distinct
identities, the ids of the sources resolved by any `getSources` call are
pairwise distinct. -/
theorem source_ids_nodup (w : World) (raw : RawOptions) (l : List Source)
    (hw : (w.windows.map Window.winId).Nodup)
    (hd : (w.displays.map Display.id).Nodup)
    (hl : getSources w raw = .ok l) :
    (l.map Source.id).Nodup := by
  cases raw with
  | arr a => simp [getSources] at hl
  | other => simp [getSources] at hl
  | obj o =>
    cases hb : w.blockNext with
    | true =>
      simp [getSources, hb] at hl
      subst hl
      exact List.nodup_nil
    | false =>
      simp only [getSources, hb, Bool.false_eq_true, if_false, Except.ok.injEq] at hl
      subst hl
      rw [List.map_append, List.nodup_append]
      refine ⟨?_, ?_, ?_⟩
      · split
        · rw [List.map_map,
            show Source.id ∘ screenSource (o.thumbnailSize.getD defaultThumbnailSize) =
              SourceId.screen ∘ Display.id from rfl, ← List.map_map]
          exact hd.map screen_id_injective
        · exact List.nodup_nil
      · split
        · rw [List.map_map,
            show Source.id ∘ windowSource (o.thumbnailSize.getD defaultThumbnailSize) =
              SourceId.window ∘ Window.winId from rfl, ← List.map_map]
          exact hw.map window_id_injective
        · exact List.nodup_nil
      · intro a ha hb2
        have h1 : ∃ d : Display, a = SourceId.screen d.id := by
          split at ha
          · rw [List.map_map] at ha
            obtain ⟨d, _, hdd⟩ := List.mem_map.mp ha
            exact ⟨d, hdd.symm⟩
          · cases ha
        have h2 : ∃ n : Nat, a = SourceId.window n := by
          split at hb2
          · rw [List.map_map] at hb2
            obtain ⟨x, _, hxx⟩ := List.mem_map.mp hb2
            exact ⟨x.winId, hxx.symm⟩
          · cases hb2
        obtain ⟨d, rfl⟩ := h1
        obtain ⟨n, h2⟩ := h2
        exact SourceId.noConfusion h2

/-- C9 witness: a query for both kinds in the sample world yields
pairwise-distinct source ids. -/
theorem source_ids_nodup_witness :
    (([screenSource defaultThumbnailSize ⟨7⟩, windowSource defaultThumbnailSize ⟨1⟩,
        windowSource defaultThumbnailSize ⟨2⟩]).map Source.id).Nodup :=
  source_ids_nodup sampleWorld (.obj ⟨[.window, .screen], none⟩) _
    (by decide) (by decide) rfl

/-- C3: in the array resolved by an unblocked window query over windows with
pairwise-distinct identities, any window higher in the z-order (smaller index
in the engine's foreground-first window list) has its source at a strictly
smaller index than any window lower in the z-order. -/
theorem window_sources_zorder (w : World) (ts : Option ThumbnailSize)
    (l : List Source) (i j ia ib : Nat) (A B : Window) (sa sb : Source)
    (hb : w.blockNext = false)
    (hnd : (w.windows.map Window.winId).Nodup)
    (hl : getSources w (.obj ⟨[.window], ts⟩) = .ok l)
    (hij : i < j)
    (hA : w.windows[i]? = some A) (hB : w.windows[j]? = some B)
    (hsa : l[ia]? = some sa) (hsb : l[ib]? = some sb)
    (hida : sa.id = A.getMediaSourceId) (hidb : sb.id = B.getMediaSourceId) :
    ia < ib := by
  have hleq : l = w.windows.map (windowSource (ts.getD defaultThumbnailSize)) := by
    simp only [getSources, hb, if_neg (by decide : ¬ SourceType.screen ∈ [SourceType.window]),
      if_pos (by decide : SourceType.window ∈ [SourceType.window]), if_false,
      List.nil_append, Bool.false_eq_true, Except.ok.injEq] at hl
    exact hl.symm
  subst hleq
  rw [List.getElem?_map] at hsa hsb
  have hwin : ∀ (k : Nat) (s : Source) (C : Window),
      Option.map (windowSource (ts.getD defaultThumbnailSize)) w.windows[k]? = some s →
      s.id = C.getMediaSourceId →
      (w.windows.map Window.winId)[k]? = some C.winId := by
    intro k s C hk hid
    cases hwk : w.windows[k]? with
    | none => rw [hwk] at hk; cases hk
    | some wk =>
      rw [hwk] at hk
      have hs : windowSource (ts.getD defaultThumbnailSize) wk = s := by
        injection hk
      have hids : wk.winId = C.winId := by
        have : SourceId.window wk.winId = SourceId.window C.winId := by
          rw [← hs] at hid
          exact hid
        injection this
      rw [List.getElem?_map, hwk]
      exact congrArg some hids
  have ha2 : (w.windows.map Window.winId)[ia]? = some A.winId :=
    hwin ia sa A hsa hida
  have hb2 : (w.windows.map Window.winId)[ib]? = some B.winId :=
    hwin ib sb B hsb hidb
  have hia : ia < (w.windows.map Window.winId).length := by
    rw [List.length_map]
    cases hwk : w.windows[ia]? with
    | none => rw [hwk] at hsa; cases hsa
    | some wk => exact (List.getElem?_eq_some.mp hwk).1
  have hjb : j < (w.windows.map Window.winId).length := by
    rw [List.length_map]
    exact (List.getElem?_eq_some.mp hB).1
  have hA2 : (w.windows.map Window.winId)[i]? = some A.winId := by
    rw [List.getElem?_map, hA]
    rfl
  have hB2 : (w.windows.map Window.winId)[j]? = some B.winId := by
    rw [List.getElem?_map, hB]
    rfl
  have hiai : ia = i := List.getElem?_inj hia hnd (hA2 ▸ ha2)
  have hibj : ib = j :=
    (List.getElem?_inj hjb hnd (hb2 ▸ hB2)).symm
  rw [hiai, hibj]
  exact hij

/-- C3 witness: in the sample world the foreground window's source comes
before the background window's source. -/
theorem window_sources_zorder_witness : (0 : Nat) < 1 :=
  window_sources_zorder sampleWorld none
    [windowSource defaultThumbnailSize ⟨1⟩, windowSource defaultThumbnailSize ⟨2⟩]
    0 1 0 1 ⟨1⟩ ⟨2⟩
    (windowSource defaultThumbnailSize ⟨1⟩) (windowSource defaultThumbnailSize ⟨2⟩)
    rfl (by decide) rfl (by decide) rfl rfl rfl rfl rfl rfl

/-- Helper for `moveAbove`: insert `m` directly in front of the first window
whose media-source id is `target` (in front meaning closer to the
foreground); when no window matches, `m` lands at the back. -/
def insertAbove (target : SourceId) (m : Window) : List Window → List Window
  | [] => [m]
  | x :: xs =>
    if x.getMediaSourceId = target then m :: x :: xs
    else x :: insertAbove target m xs

/-- Modelled from the spec: `BrowserWindow.moveAbove(mediaSourceId)` — the
window is restacked directly above the window carrying the given
media-source id; when no live window carries that id the engine reports an
error and the z-order is unchanged. -/
def moveAbove (ws : List Window) (m : Window) (target : SourceId) : List Window :=
  if ws.any (fun x => decide (x.getMediaSourceId = target)) then
    insertAbove target m (ws.filter (fun x => x.winId != m.winId))
  else ws

/-- The reorder loop of the test, in its forward order: for each index `i`
from the front, move the i-th window above the (i+1)-th. -/
def moveEachAboveNext (ws : List Window) : List Window → List Window
  | a :: b :: rest => moveEachAboveNext (moveAbove ws a b.getMediaSourceId) (b :: rest)
  | _ => ws

/-- The same adjacent-pair moves applied from the last pair to the first. -/
def moveEachAboveNextRev (ws : List Window) : List Window → List Window
  | a :: b :: rest => moveAbove (moveEachAboveNextRev ws (b :: rest)) a b.getMediaSourceId
  | _ => ws

/-- Helper: filtering out an identity that occurs nowhere in the list leaves
it unchanged. -/
theorem filter_ne_id_eq_self (l : List Window) (n : Nat)
    (h : n ∉ l.map Window.winId) :
    l.filter (fun x => x.winId != n) = l := by
  refine List.filter_eq_self.mpr ?_
  intro x hx
  have hxn : x.winId ≠ n := fun he => h (he ▸ List.mem_map_of_mem Window.winId hx)
  simpa using hxn

/-- Helper: inserting above the head window places the mover directly in
front of it. -/
theorem insertAbove_head_eq (b m : Window) (l : List Window) :
    insertAbove b.getMediaSourceId m (b :: l) = m :: b :: l := by
  simp [insertAbove]

/-- Helper: applying the adjacent-pair moves from the last pair to the first
turns a window list stacked in reverse order (above arbitrary further
windows) into the list's own order. -/
theorem moveEachAboveNextRev_sorts (wl : List Window) :
    ∀ rest : List Window, ((wl ++ rest).map Window.winId).Nodup → wl ≠ [] →
      moveEachAboveNextRev (wl.reverse ++ rest) wl = wl ++ rest := by
  induction wl with
  | nil => exact fun rest _ hne => absurd rfl hne
  | cons a wl' ih =>
    intro rest hnd _
    cases wl' with
    | nil => rfl
    | cons b t =>
      have hws : (a :: b :: t).reverse ++ rest = (b :: t).reverse ++ (a :: rest) := by
        rw [List.reverse_cons, List.append_assoc]
        rfl
      have hnd' : (((b :: t) ++ a :: rest).map Window.winId).Nodup := by
        refine ((List.perm_middle.map Window.winId).nodup_iff).mpr ?_
        exact hnd
      have hinner : moveEachAboveNextRev ((b :: t).reverse ++ (a :: rest)) (b :: t) =
          (b :: t) ++ (a :: rest) :=
        ih (a :: rest) hnd' (List.cons_ne_nil b t)
      rw [hws]
      show moveAbove (moveEachAboveNextRev ((b :: t).reverse ++ (a :: rest)) (b :: t))
          a b.getMediaSourceId = (a :: b :: t) ++ rest
      rw [hinner]
      rw [List.map_append, List.nodup_append] at hnd'
      obtain ⟨hnd1, hnd2, hdisj⟩ := hnd'
      have hna : a.winId ∉ (b :: t).map Window.winId :=
        fun hmem => hdisj hmem (List.mem_map_of_mem Window.winId (List.mem_cons_self a rest))
      have hna2 : a.winId ∉ rest.map Window.winId := by
        rw [show (a :: rest).map Window.winId = a.winId :: rest.map Window.winId from rfl,
          List.nodup_cons] at hnd2
        exact hnd2.1
      have hany : ((b :: t) ++ a :: rest).any
          (fun x => decide (x.getMediaSourceId = b.getMediaSourceId)) = true :=
        List.any_eq_true.mpr ⟨b, by simp, by simp⟩
      rw [moveAbove, if_pos hany]
      have hfil : ((b :: t) ++ a :: rest).filter (fun x => x.winId != a.winId) =
          (b :: t) ++ rest := by
        rw [List.filter_append, filter_ne_id_eq_self _ _ hna]
        have hhd : (a :: rest).filter (fun x => x.winId != a.winId) =
            rest.filter (fun x => x.winId != a.winId) := by
          simp [List.filter_cons]
        rw [hhd, filter_ne_id_eq_self _ _ hna2]
      rw [hfil]
      show insertAbove b.getMediaSourceId a (b :: (t ++ rest)) = a :: b :: (t ++ rest)
      exact insertAbove_head_eq b a (t ++ rest)

/-- C4 counterexample: three distinct windows stacked in reverse list order
(foreground first: the third, the second, the first), each moved above its
successor in the order the test performs the moves — first pair first — do
not end up in list order: the window query's first resolved source carries
the second window's media-source id, not the first window's. -/
theorem moveAbove_forward_chain_counterexample :
    getSources ⟨moveEachAboveNext [⟨2⟩, ⟨1⟩, ⟨0⟩] [⟨0⟩, ⟨1⟩, ⟨2⟩], [], false⟩
        (.obj ⟨[.window], some ⟨0, 0⟩⟩) =
      .ok [windowSource ⟨0, 0⟩ ⟨1⟩, windowSource ⟨0, 0⟩ ⟨2⟩, windowSource ⟨0, 0⟩ ⟨0⟩] ∧
    (windowSource ⟨0, 0⟩ (⟨1⟩ : Window)).id ≠ Window.getMediaSourceId ⟨0⟩ :=
  ⟨rfl, by decide⟩

/-- C4 (amended): when the adjacent-pair moves are applied from the last pair
to the first, a window list stacked in reverse order above arbitrary further
windows ends up ordered foreground-to-background, and the window query then
returns those windows' sources as the first entries in exactly the list's
order. -/
theorem moveAbove_reverse_chain_orders_sources (wl rest : List Window)
    (ds : List Display) (ts : Option ThumbnailSize)
    (hnd : ((wl ++ rest).map Window.winId).Nodup) (hne : wl ≠ []) :
    ∃ l, getSources ⟨moveEachAboveNextRev (wl.reverse ++ rest) wl, ds, false⟩
          (.obj ⟨[.window], ts⟩) = .ok l ∧
      (l.map Source.id).take wl.length = wl.map Window.getMediaSourceId := by
  rw [moveEachAboveNextRev_sorts wl rest hnd hne]
  refine ⟨(wl ++ rest).map (windowSource (ts.getD defaultThumbnailSize)), ?_, ?_⟩
  · simp only [getSources, if_neg (by decide : ¬ SourceType.screen ∈ [SourceType.window]),
      if_pos (by decide : SourceType.window ∈ [SourceType.window]), if_false,
      List.nil_append, Bool.false_eq_true]
  · rw [List.map_map,
      show Source.id ∘ windowSource (ts.getD defaultThumbnailSize) =
        Window.getMediaSourceId from rfl,
      List.map_append,
      show wl.length = (wl.map Window.getMediaSourceId).length from
        (List.length_map wl Window.getMediaSourceId).symm]
    exact List.take_left _ _

/-- C4 (amended) witness: three windows above one further window, reordered
from the last pair to the first, come out first and in list order. -/
theorem moveAbove_reverse_chain_orders_sources_witness :
    ∃ l, getSources ⟨moveEachAboveNextRev (([⟨0⟩, ⟨1⟩, ⟨2⟩] : List Window).reverse ++ [⟨5⟩])
            [⟨0⟩, ⟨1⟩, ⟨2⟩], [], false⟩
          (.obj ⟨[.window], some ⟨0, 0⟩⟩) = .ok l ∧
      (l.map Source.id).take ([⟨0⟩, ⟨1⟩, ⟨2⟩] : List Window).length =
        ([⟨0⟩, ⟨1⟩, ⟨2⟩] : List Window).map Window.getMediaSourceId :=
  moveAbove_reverse_chain_orders_sources [⟨0⟩, ⟨1⟩, ⟨2⟩] [⟨5⟩] [] (some ⟨0, 0⟩)
    (by decide) (by decide)

end DesktopCapturer
